import Mathlib

/-!
Verification of the scalar fee-rate estimator and the `is-standard`
principal check of the stacks-blockchain repository, as a shallow
embedding in Lean 4.

The estimator implementation (`cost_estimates/fee_scalar.rs`) is present
in the repository only through its unit tests
(`src/cost_estimates/tests/fee_scalar.rs`), so the estimator operations
are modelled from the specification; each such definition carries a
doc comment starting `Modelled from the spec:`.  The principal check is
embedded directly from `clarity/src/vm/functions/principals.rs`.
-/

/-! ## Data model: execution costs, receipts, cost metrics -/

/-- A transaction's raw resource-usage vector (`ExecutionCost` in
`vm::costs`): five unsigned 64-bit dimensions, opaque to the estimator
beyond being fed to the cost metric. -/
structure ExecutionCost where
  runtime : Nat
  write_length : Nat
  write_count : Nat
  read_length : Nat
  read_count : Nat
deriving DecidableEq, Repr

/-- `ExecutionCost::zero()`. -/
def ExecutionCost.zero : ExecutionCost :=
  { runtime := 0, write_length := 0, write_count := 0
    read_length := 0, read_count := 0 }

/-- The payload kind of a transaction, as far as the estimator's
eligibility filter is concerned (`TransactionPayload` variants). -/
inductive TransactionPayloadKind where
  | Coinbase
  | TokenTransfer
  | ContractCall
  | SmartContract
  | PoisonMicroblock
deriving DecidableEq, Repr

/-- One per-transaction receipt of a confirmed block
(`StacksTransactionReceipt`, restricted to the fields the estimator
consumes): payload kind, fee paid, byte length, resource-usage vector,
and whether the transaction has an execution profile (plain value
transfers do not, so the length-only metric is used for them). -/
structure TxReceipt where
  payload_kind : TransactionPayloadKind
  fee_paid : Nat
  byte_length : Nat
  execution_cost : ExecutionCost
  has_execution_profile : Bool
deriving DecidableEq, Repr

/-- A cost metric strategy (`CostMetric` in `cost_estimates::metrics`):
reduces a usage vector and byte length — or the byte length alone — to
one scalar unit cost. -/
structure CostMetric where
  from_cost_and_len : ExecutionCost → Nat → Nat
  from_len : Nat → Nat

/-- The trivial metric of the unit tests (`TestCostMetric` in
`src/cost_estimates/tests/fee_scalar.rs`): unit cost always 1. -/
def TestCostMetric : CostMetric :=
  { from_cost_and_len := fun _ _ => 1, from_len := fun _ => 1 }

/-- Unit cost of one receipt under a metric: `from_cost_and_len` when the
transaction has an execution profile, else `from_len`. -/
def unit_cost (m : CostMetric) (r : TxReceipt) : Nat :=
  if r.has_execution_profile then
    m.from_cost_and_len r.execution_cost r.byte_length
  else
    m.from_len r.byte_length

/-- Modelled from the spec: the fee rate of one transaction —
`fee ÷ max(unit_cost, 1)` with floor division (spec §3 and §4.2); the
dividing code of `fee_scalar.rs` is not under `src/`. -/
def fee_rate (m : CostMetric) (r : TxReceipt) : Nat :=
  r.fee_paid / max (unit_cost m r) 1

/-- Modelled from the spec: the eligibility filter of §4.2 — coinbase
(block-reward) transactions are excluded, every other payload kind is
eligible; the filtering code of `fee_scalar.rs` is not under `src/`. -/
def is_eligible (r : TxReceipt) : Bool :=
  match r.payload_kind with
  | .Coinbase => false
  | _ => true

/-! ## Fee rate estimates and the estimator state -/

/-- The three-tier estimate `FeeRateEstimate { fast, medium, slow }`. -/
structure FeeRateEstimate where
  fast : Nat
  medium : Nat
  slow : Nat
deriving DecidableEq, Repr

/-- Estimator errors (`EstimatorError`); the estimator signals
`NoEstimateAvailable` while its persisted state is still absent. -/
inductive EstimatorError where
  | NoEstimateAvailable
deriving DecidableEq, Repr

/-- Modelled from the spec: the persisted singleton state of §3 — either
absent or the last committed `FeeRateEstimate`; the storage code of
`fee_scalar.rs` is not under `src/`. -/
inductive EstimatorState where
  | NoEstimate
  | Estimate (e : FeeRateEstimate)
deriving DecidableEq, Repr

/-- Default percentile numerators, in hundredths (spec §4.2:
slow = 0.05, medium = 0.50, fast = 0.95). -/
def PERCENTILE_SLOW_NUM : Nat := 5

/-- Medium-tier percentile numerator, in hundredths. -/
def PERCENTILE_MEDIUM_NUM : Nat := 50

/-- Fast-tier percentile numerator, in hundredths. -/
def PERCENTILE_FAST_NUM : Nat := 95

/-- Common denominator of the percentile fractions. -/
def PERCENTILE_DEN : Nat := 100

/-- Modelled from the spec: the sampling index of §4.2 — for percentile
`p = p_num / p_den` over `n` sorted fee rates, the sampled element's
index is `min (n-1) ⌊p * n⌋`; the sampling code of `fee_scalar.rs` is
not under `src/`. -/
def sample_index (p_num p_den n : Nat) : Nat :=
  min (n - 1) (p_num * n / p_den)

/-- Modelled from the spec: per-block measurement of §4.2 — filter the
receipts to the eligible set, compute each fee rate, sort ascending, and
sample the three tier percentiles; `none` when the eligible set is
empty.  The measuring code of `fee_scalar.rs` is not under `src/`. -/
def measure_rates (m : CostMetric) (txs : List TxReceipt) : Option FeeRateEstimate :=
  let rates := (txs.filter is_eligible).map (fee_rate m)
  let sorted := List.insertionSort (· ≤ ·) rates
  if rates.length = 0 then
    none
  else
    some
      { fast := sorted.getD (sample_index PERCENTILE_FAST_NUM PERCENTILE_DEN rates.length) 0
        medium := sorted.getD (sample_index PERCENTILE_MEDIUM_NUM PERCENTILE_DEN rates.length) 0
        slow := sorted.getD (sample_index PERCENTILE_SLOW_NUM PERCENTILE_DEN rates.length) 0 }

/-- Modelled from the spec: the per-tier 50/50 floor-averaged blend of
§4.3, `new = ⌊(old + sampled) / 2⌋`; the blending code of
`fee_scalar.rs` is not under `src/`. -/
def blend (old sampled : Nat) : Nat :=
  (old + sampled) / 2

/-- Modelled from the spec: blending applied independently to each of
the three tiers (§4.3). -/
def blend_estimate (old sampled : FeeRateEstimate) : FeeRateEstimate :=
  { fast := blend old.fast sampled.fast
    medium := blend old.medium sampled.medium
    slow := blend old.slow sampled.slow }

/-- Modelled from the spec: `notify_block` (§4.2–§4.3) — measure the
block; if the eligible set is empty the state is unchanged (success);
otherwise the sampled values are blended with the prior estimate, or
taken directly when no prior estimate exists.  The update code of
`fee_scalar.rs` is not under `src/`. -/
def notify_block (m : CostMetric) (s : EstimatorState) (txs : List TxReceipt) : EstimatorState :=
  match measure_rates m txs with
  | none => s
  | some sampled =>
    match s with
    | .NoEstimate => .Estimate sampled
    | .Estimate old => .Estimate (blend_estimate old sampled)

/-- Modelled from the spec: `get_rate_estimates` (§4.5) — return the
cached estimate, or the no-estimate-available error while the state is
absent; it performs no computation and does not change the state.  The
query code of `fee_scalar.rs` is not under `src/`. -/
def get_rate_estimates : EstimatorState → Except EstimatorError FeeRateEstimate
  | .NoEstimate => .error .NoEstimateAvailable
  | .Estimate e => .ok e

/-- Repeated application of `notify_block` with the same block receipt,
`n` times. -/
def notify_iter (m : CostMetric) (txs : List TxReceipt) : Nat → EstimatorState → EstimatorState
  | 0, s => s
  | n + 1, s => notify_iter m txs n (notify_block m s txs)

/-! ## Test fixtures of `src/cost_estimates/tests/fee_scalar.rs` -/

/-- The coinbase receipt built by `make_dummy_coinbase_tx` together with
`StacksTransactionReceipt::from_coinbase`: a `Coinbase` payload with the
default zero fee and zero cost. -/
def make_dummy_coinbase_receipt : TxReceipt :=
  { payload_kind := .Coinbase, fee_paid := 0, byte_length := 0
    execution_cost := ExecutionCost.zero, has_execution_profile := false }

/-- The token-transfer receipt built by `make_dummy_transfer_tx`: a
`TokenTransfer` payload paying `fee`, with no execution profile. -/
def make_dummy_transfer_receipt (fee : Nat) : TxReceipt :=
  { payload_kind := .TokenTransfer, fee_paid := fee, byte_length := 0
    execution_cost := ExecutionCost.zero, has_execution_profile := false }

/-- The contract-call receipt built by `make_dummy_cc_tx`: a
`ContractCall` payload paying `fee` with a zero execution cost. -/
def make_dummy_cc_receipt (fee : Nat) : TxReceipt :=
  { payload_kind := .ContractCall, fee_paid := fee, byte_length := 0
    execution_cost := ExecutionCost.zero, has_execution_profile := true }

/-! ## The `is-standard` principal check
(`clarity/src/vm/functions/principals.rs`) -/

/-- `StandardPrincipalData(version, bytes)` and
`QualifiedContractIdentifier { issuer, name }`; for a contract principal
the version consulted is the issuer's version byte (`issuer.0`). -/
inductive PrincipalData where
  | Standard (version : Nat) (bytes : List Nat)
  | Contract (issuer_version : Nat) (issuer_bytes : List Nat) (name : String)
deriving DecidableEq, Repr

/-- The version byte `special_is_standard` extracts from a principal. -/
def PrincipalData.version_byte : PrincipalData → Nat
  | .Standard version _ => version
  | .Contract issuer_version _ _ => issuer_version

/-- The fragment of Clarity `Value` that `special_is_standard`
distinguishes: principals, and non-principal values (represented here by
booleans and integers) which make it raise a type-value error. -/
inductive ClarityValue where
  | Bool (b : Bool)
  | Int (i : Int)
  | Principal (p : PrincipalData)
deriving DecidableEq, Repr

/-- The error raised on a non-principal argument:
`CheckErrors::TypeValueError(TypeSignature::PrincipalType, owner)`. -/
inductive ClarityError where
  | TypeValueError (owner : ClarityValue)
deriving DecidableEq, Repr

/-- `C32_ADDRESS_VERSION_MAINNET_SINGLESIG` (`stacks_common::address`). -/
def C32_ADDRESS_VERSION_MAINNET_SINGLESIG : Nat := 22

/-- `C32_ADDRESS_VERSION_MAINNET_MULTISIG` (`stacks_common::address`). -/
def C32_ADDRESS_VERSION_MAINNET_MULTISIG : Nat := 20

/-- `C32_ADDRESS_VERSION_TESTNET_SINGLESIG` (`stacks_common::address`). -/
def C32_ADDRESS_VERSION_TESTNET_SINGLESIG : Nat := 26

/-- `C32_ADDRESS_VERSION_TESTNET_MULTISIG` (`stacks_common::address`). -/
def C32_ADDRESS_VERSION_TESTNET_MULTISIG : Nat := 21

/-- `special_is_standard` of `clarity/src/vm/functions/principals.rs`,
embedded over the already-evaluated argument value and the
`env.global_context.mainnet` flag (argument-count checking, cost
tracking and sub-expression evaluation are outside the claim): extract
the version byte of a standard principal, or the issuer's version byte
of a contract principal, or fail with a type-value error; then answer
whether the address network (by version byte) matches the execution
context's network. -/
def special_is_standard (owner : ClarityValue) (context_is_mainnet : Bool) :
    Except ClarityError ClarityValue := do
  let version ← match owner with
    | .Principal (.Standard version _bytes) => pure version
    | .Principal (.Contract issuer_version _issuer_bytes _name) => pure issuer_version
    | _ => throw (.TypeValueError owner)
  let address_is_mainnet := version == C32_ADDRESS_VERSION_MAINNET_MULTISIG
    || version == C32_ADDRESS_VERSION_MAINNET_SINGLESIG
  let address_is_testnet := version == C32_ADDRESS_VERSION_TESTNET_MULTISIG
    || version == C32_ADDRESS_VERSION_TESTNET_SINGLESIG
  return .Bool ((address_is_mainnet && context_is_mainnet)
    || (address_is_testnet && !context_is_mainnet))

/-! ## Helper lemmas -/

/-- A list whose members are all ineligible filters to the empty
eligible set. -/
theorem filter_eligible_eq_nil {txs : List TxReceipt}
    (h : ∀ x ∈ txs, is_eligible x = false) : txs.filter is_eligible = [] := by
  induction txs with
  | nil => rfl
  | cons a l ih =>
    have ha := h a (List.mem_cons_self a l)
    rw [List.filter_cons, ha]
    exact ih fun x hx => h x (List.mem_cons_of_mem a hx)

/-- A block with no eligible transaction produces no measurement. -/
theorem measure_rates_eq_none {m : CostMetric} {txs : List TxReceipt}
    (h : ∀ x ∈ txs, is_eligible x = false) : measure_rates m txs = none := by
  unfold measure_rates
  rw [filter_eligible_eq_nil h]
  rfl

/-- Contract-call receipts are all eligible, so the filter keeps every
one of them. -/
theorem filter_eligible_map_cc (fees : List Nat) :
    (fees.map make_dummy_cc_receipt).filter is_eligible = fees.map make_dummy_cc_receipt := by
  induction fees with
  | nil => rfl
  | cons a l ih => simp [List.filter_cons, is_eligible, make_dummy_cc_receipt, ih]

/-- Under the unit-test metric every contract-call receipt's fee rate is
exactly its paid fee. -/
theorem fee_rates_map_cc (fees : List Nat) :
    (fees.map make_dummy_cc_receipt).map (fee_rate TestCostMetric) = fees := by
  induction fees with
  | nil => rfl
  | cons a l ih =>
    simpa [fee_rate, unit_cost, make_dummy_cc_receipt, TestCostMetric] using ih

/-- Sorting is invariant under permutation of the input: two lists of
fee rates holding the same multiset sort to the same sequence. -/
theorem insertionSort_eq_of_perm {l1 l2 : List Nat} (h : l1.Perm l2) :
    List.insertionSort (· ≤ ·) l1 = List.insertionSort (· ≤ ·) l2 :=
  List.eq_of_perm_of_sorted
    ((List.perm_insertionSort _ l1).trans (h.trans (List.perm_insertionSort _ l2).symm))
    (List.sorted_insertionSort _ l1) (List.sorted_insertionSort _ l2)

/-! ## Claims -/

/-- C1: for a block whose eligible set has size N ≥ 1, `notify_block`'s
measurement computes each eligible transaction's fee rate, sorts the
rates ascending, and samples each tier at index `min (N-1) ⌊p·N⌋` of
the sorted sequence with p = 0.05 / 0.50 / 0.95; for N = 2 the slow
index is 0 and the medium and fast indices are 1, and for N = 1 all
three indices are 0. -/
theorem percentile_sampling_formula (m : CostMetric) (txs : List TxReceipt)
    (h : 1 ≤ ((txs.filter is_eligible).map (fee_rate m)).length) :
    (measure_rates m txs =
      some
        { fast :=
            (List.insertionSort (· ≤ ·) ((txs.filter is_eligible).map (fee_rate m))).getD
              (min (((txs.filter is_eligible).map (fee_rate m)).length - 1)
                (95 * ((txs.filter is_eligible).map (fee_rate m)).length / 100)) 0
          medium :=
            (List.insertionSort (· ≤ ·) ((txs.filter is_eligible).map (fee_rate m))).getD
              (min (((txs.filter is_eligible).map (fee_rate m)).length - 1)
                (50 * ((txs.filter is_eligible).map (fee_rate m)).length / 100)) 0
          slow :=
            (List.insertionSort (· ≤ ·) ((txs.filter is_eligible).map (fee_rate m))).getD
              (min (((txs.filter is_eligible).map (fee_rate m)).length - 1)
                (5 * ((txs.filter is_eligible).map (fee_rate m)).length / 100)) 0 })
    ∧ sample_index PERCENTILE_SLOW_NUM PERCENTILE_DEN 2 = 0
    ∧ sample_index PERCENTILE_MEDIUM_NUM PERCENTILE_DEN 2 = 1
    ∧ sample_index PERCENTILE_FAST_NUM PERCENTILE_DEN 2 = 1
    ∧ sample_index PERCENTILE_SLOW_NUM PERCENTILE_DEN 1 = 0
    ∧ sample_index PERCENTILE_MEDIUM_NUM PERCENTILE_DEN 1 = 0
    ∧ sample_index PERCENTILE_FAST_NUM PERCENTILE_DEN 1 = 0 := by
  refine ⟨?_, by decide, by decide, by decide, by decide, by decide, by decide⟩
  unfold measure_rates sample_index PERCENTILE_SLOW_NUM PERCENTILE_MEDIUM_NUM
    PERCENTILE_FAST_NUM PERCENTILE_DEN
  rw [if_neg (by omega)]

/-- C1 witness: a single eligible contract-call transaction paying fee 3
is measured as {fast 3, medium 3, slow 3}. -/
theorem percentile_sampling_formula_witness :
    measure_rates TestCostMetric [make_dummy_cc_receipt 3] =
      some { fast := 3, medium := 3, slow := 3 } := by
  have h :=
    (percentile_sampling_formula TestCostMetric [make_dummy_cc_receipt 3] (by decide)).1
  exact h.trans (by decide)

/-- C2: whenever a block's measurement yields sampled tiers S, notifying
it on a prior estimate E updates each tier independently to
⌊(E + S) / 2⌋, and notifying it with no prior state installs S
directly, with no blending. -/
theorem blend_update_formula (m : CostMetric) (txs : List TxReceipt)
    (old sampled : FeeRateEstimate)
    (h : measure_rates m txs = some sampled) :
    notify_block m (.Estimate old) txs =
      .Estimate
        { fast := (old.fast + sampled.fast) / 2
          medium := (old.medium + sampled.medium) / 2
          slow := (old.slow + sampled.slow) / 2 }
    ∧ notify_block m .NoEstimate txs = .Estimate sampled := by
  constructor <;> simp [notify_block, h, blend_estimate, blend]

/-- C2 witness: blending prior {4, 4, 4} with the sampled tiers {3, 3, 3}
of a one-transaction block yields {3, 3, 3} (⌊7/2⌋). -/
theorem blend_update_formula_witness :
    notify_block TestCostMetric (.Estimate { fast := 4, medium := 4, slow := 4 })
        [make_dummy_cc_receipt 3] =
      .Estimate { fast := 3, medium := 3, slow := 3 } := by
  have h :=
    (blend_update_formula TestCostMetric [make_dummy_cc_receipt 3]
      { fast := 4, medium := 4, slow := 4 } { fast := 3, medium := 3, slow := 3 }
      (by decide)).1
  exact h.trans (by decide)

/-- C3: with no prior state, a block whose only eligible transaction
pays fee F at unit cost 1 — surrounded by any number of ineligible
(coinbase/reward) receipts — yields the estimate {fast F, medium F,
slow F}. -/
theorem first_observation_exact (m : CostMetric) (F : Nat) (r : TxReceipt)
    (pre post : List TxReceipt)
    (helig : is_eligible r = true)
    (hcost : unit_cost m r = 1)
    (hfee : r.fee_paid = F)
    (hpre : ∀ x ∈ pre, is_eligible x = false)
    (hpost : ∀ x ∈ post, is_eligible x = false) :
    notify_block m .NoEstimate (pre ++ r :: post) =
      .Estimate { fast := F, medium := F, slow := F } := by
  have hfilter : (pre ++ r :: post).filter is_eligible = [r] := by
    rw [List.filter_append, filter_eligible_eq_nil hpre, List.filter_cons,
      filter_eligible_eq_nil hpost]
    simp [helig]
  have hrate : fee_rate m r = F := by
    simp [fee_rate, hcost, hfee]
  simp [notify_block, measure_rates, hfilter, hrate, sample_index,
    PERCENTILE_SLOW_NUM, PERCENTILE_MEDIUM_NUM, PERCENTILE_FAST_NUM, PERCENTILE_DEN]

/-- C3 witness: a coinbase receipt followed by one eligible transfer of
fee 7 takes the fresh estimator to {7, 7, 7}. -/
theorem first_observation_exact_witness :
    notify_block TestCostMetric .NoEstimate
        [make_dummy_coinbase_receipt, make_dummy_transfer_receipt 7] =
      .Estimate { fast := 7, medium := 7, slow := 7 } :=
  first_observation_exact TestCostMetric 7 (make_dummy_transfer_receipt 7)
    [make_dummy_coinbase_receipt] [] (by decide) (by decide) (by decide)
    (by decide) (by decide)

/-- C4: a block with no eligible transaction leaves any estimator state
unchanged — also under arbitrarily many repetitions — and in particular
never moves a fresh estimator away from the no-estimate-available
answer. -/
theorem empty_block_no_change (m : CostMetric) (s : EstimatorState)
    (txs : List TxReceipt)
    (h : ∀ x ∈ txs, is_eligible x = false) :
    notify_block m s txs = s
    ∧ (∀ n, notify_iter m txs n s = s)
    ∧ (∀ n, get_rate_estimates (notify_iter m txs n .NoEstimate) =
        .error .NoEstimateAvailable) := by
  have hstep : ∀ t : EstimatorState, notify_block m t txs = t := by
    intro t
    simp [notify_block, measure_rates_eq_none h]
  have hiter : ∀ n, ∀ t : EstimatorState, notify_iter m txs n t = t := by
    intro n
    induction n with
    | zero => intro t; rfl
    | succ k ih => intro t; rw [notify_iter, hstep]; exact ih t
  exact ⟨hstep s, fun n => hiter n s, fun n => by rw [hiter]; rfl⟩

/-- C4 witness: a coinbase-only block leaves the estimate {2, 2, 2}
untouched. -/
theorem empty_block_no_change_witness :
    notify_block TestCostMetric (.Estimate { fast := 2, medium := 2, slow := 2 })
        [make_dummy_coinbase_receipt] =
      .Estimate { fast := 2, medium := 2, slow := 2 } :=
  (empty_block_no_change TestCostMetric
      (.Estimate { fast := 2, medium := 2, slow := 2 })
      [make_dummy_coinbase_receipt] (by decide)).1

/-- C5: on the fresh (absent) state, `get_rate_estimates` answers the
no-estimate-available error and not a value; it is a pure read of the
state — on a present estimate it returns exactly the cached value,
performing no computation and leaving the state untouched. -/
theorem fresh_query_no_estimate :
    get_rate_estimates .NoEstimate = .error .NoEstimateAvailable
    ∧ (∀ v : FeeRateEstimate, get_rate_estimates .NoEstimate ≠ .ok v)
    ∧ (∀ e : FeeRateEstimate, get_rate_estimates (.Estimate e) = .ok e) := by
  refine ⟨rfl, ?_, fun _ => rfl⟩
  intro v h
  cases h

/-- The block of the unit test's repeated scenario: one coinbase plus
two eligible transactions with fees 1 and 10, every unit cost 1. -/
def double_tx_block : List TxReceipt :=
  [make_dummy_coinbase_receipt, make_dummy_cc_receipt 1, make_dummy_transfer_receipt 10]

/-- C6: from {5, 5, 1}, repeatedly notifying the block with eligible
fees {1, 10} drives the estimate through {7, 7, 1}, {8, 8, 1}, {9, 9, 1},
and every further repetition leaves it fixed at {9, 9, 1}: 9 is a fixed
point of the floor-average blend against the sample 10. -/
theorem truncation_lock :
    notify_block TestCostMetric (.Estimate { fast := 5, medium := 5, slow := 1 })
        double_tx_block = .Estimate { fast := 7, medium := 7, slow := 1 }
    ∧ notify_block TestCostMetric (.Estimate { fast := 7, medium := 7, slow := 1 })
        double_tx_block = .Estimate { fast := 8, medium := 8, slow := 1 }
    ∧ notify_block TestCostMetric (.Estimate { fast := 8, medium := 8, slow := 1 })
        double_tx_block = .Estimate { fast := 9, medium := 9, slow := 1 }
    ∧ blend 9 10 = 9
    ∧ (∀ n, notify_iter TestCostMetric double_tx_block n
        (.Estimate { fast := 9, medium := 9, slow := 1 }) =
        .Estimate { fast := 9, medium := 9, slow := 1 }) := by
  refine ⟨by decide, by decide, by decide, by decide, ?_⟩
  intro n
  induction n with
  | zero => rfl
  | succ k ih =>
    have hstep :
        notify_block TestCostMetric (.Estimate { fast := 9, medium := 9, slow := 1 })
          double_tx_block = .Estimate { fast := 9, medium := 9, slow := 1 } := by decide
    rw [notify_iter, hstep]
    exact ih

/-- The fee multiset of the unit test's large block: {0, 10, ..., 990}. -/
def large_block_fees : List Nat :=
  (List.range 100).map (fun i => 10 * i)

/-- C7: for every ordering of the 100 eligible contract-call
transactions with fees {0, 10, ..., 990} and unit cost 1, notifying on
the prior estimate {9, 9, 1} yields {479, 254, 25}: the result depends
only on the multiset of eligible fee rates, not on receipt order. -/
theorem order_invariant_large_block (fees : List Nat)
    (h : fees.Perm large_block_fees) :
    notify_block TestCostMetric (.Estimate { fast := 9, medium := 9, slow := 1 })
        (fees.map make_dummy_cc_receipt) =
      .Estimate { fast := 479, medium := 254, slow := 25 } := by
  have key : measure_rates TestCostMetric (fees.map make_dummy_cc_receipt) =
      measure_rates TestCostMetric (large_block_fees.map make_dummy_cc_receipt) := by
    simp only [measure_rates]
    rw [filter_eligible_map_cc, filter_eligible_map_cc, fee_rates_map_cc,
      fee_rates_map_cc, insertionSort_eq_of_perm h, h.length_eq]
  simp only [notify_block, key]
  decide

/-- C7 witness: the large block in its ascending order itself. -/
theorem order_invariant_large_block_witness :
    notify_block TestCostMetric (.Estimate { fast := 9, medium := 9, slow := 1 })
        (large_block_fees.map make_dummy_cc_receipt) =
      .Estimate { fast := 479, medium := 254, slow := 25 } :=
  order_invariant_large_block large_block_fees (List.Perm.refl _)

/-- C8: for every eligible-set size N ≥ 1 and every percentile fraction,
the sampling index `min (N-1) ⌊p·N⌋` lies between 0 and N-1, so the
lookup into the sorted fee-rate sequence is always in bounds. -/
theorem sample_index_in_bounds (n p_num p_den : Nat) (hn : 1 ≤ n) :
    sample_index p_num p_den n ≤ n - 1 ∧ sample_index p_num p_den n < n := by
  unfold sample_index
  omega

/-- C8 witness: at N = 3 with the fast percentile 95/100 the index is at
most 2 and strictly below 3. -/
theorem sample_index_in_bounds_witness :
    sample_index PERCENTILE_FAST_NUM PERCENTILE_DEN 3 ≤ 2
    ∧ sample_index PERCENTILE_FAST_NUM PERCENTILE_DEN 3 < 3 :=
  sample_index_in_bounds 3 PERCENTILE_FAST_NUM PERCENTILE_DEN (by decide)

/-- C9: every fee rate is `fee ÷ max(unit_cost, 1)` by floor division:
the divisor is always at least 1, and a cost-metric output of 0 makes
the substituted divisor 1, so the fee rate degrades to the fee itself
and no division by zero can occur. -/
theorem fee_rate_division_safe (m : CostMetric) (r : TxReceipt) :
    1 ≤ max (unit_cost m r) 1
    ∧ fee_rate m r = r.fee_paid / max (unit_cost m r) 1
    ∧ (unit_cost m r = 0 → fee_rate m r = r.fee_paid) := by
  refine ⟨Nat.le_max_right _ _, rfl, fun h => ?_⟩
  simp [fee_rate, h]

/-- C9 witness: a metric that always reports cost 0 gives the transfer
of fee 7 the fee rate 7. -/
theorem fee_rate_division_safe_witness :
    fee_rate { from_cost_and_len := fun _ _ => 0, from_len := fun _ => 0 }
      (make_dummy_transfer_receipt 7) = 7 :=
  (fee_rate_division_safe
      { from_cost_and_len := fun _ _ => 0, from_len := fun _ => 0 }
      (make_dummy_transfer_receipt 7)).2.2 rfl

/-- C10: `special_is_standard` answers `ok true` on a standard or
contract principal exactly when the relevant version byte is a mainnet
version (single-sig or multi-sig) and the context is mainnet, or a
testnet version and the context is not mainnet; a version byte outside
those four values answers `ok false` in both contexts, and a
non-principal argument yields the type-value error instead of a
boolean. -/
theorem is_standard_network_match (p : PrincipalData) (mainnet : Bool)
    (v : ClarityValue)
    (hv : ∀ q : PrincipalData, v ≠ .Principal q) :
    (special_is_standard (.Principal p) mainnet = .ok (.Bool true) ↔
      ((p.version_byte = C32_ADDRESS_VERSION_MAINNET_SINGLESIG ∨
        p.version_byte = C32_ADDRESS_VERSION_MAINNET_MULTISIG) ∧ mainnet = true) ∨
      ((p.version_byte = C32_ADDRESS_VERSION_TESTNET_SINGLESIG ∨
        p.version_byte = C32_ADDRESS_VERSION_TESTNET_MULTISIG) ∧ mainnet = false))
    ∧ (p.version_byte ≠ C32_ADDRESS_VERSION_MAINNET_SINGLESIG →
        p.version_byte ≠ C32_ADDRESS_VERSION_MAINNET_MULTISIG →
        p.version_byte ≠ C32_ADDRESS_VERSION_TESTNET_SINGLESIG →
        p.version_byte ≠ C32_ADDRESS_VERSION_TESTNET_MULTISIG →
        special_is_standard (.Principal p) mainnet = .ok (.Bool false))
    ∧ special_is_standard v mainnet = .error (.TypeValueError v) := by
  refine ⟨?_, ?_, ?_⟩
  · cases p with
    | Standard version bytes =>
      cases mainnet <;>
        simp [special_is_standard, PrincipalData.version_byte, pure, Except.pure, bind, Except.bind,
          C32_ADDRESS_VERSION_MAINNET_SINGLESIG, C32_ADDRESS_VERSION_MAINNET_MULTISIG,
          C32_ADDRESS_VERSION_TESTNET_SINGLESIG, C32_ADDRESS_VERSION_TESTNET_MULTISIG,
          or_comm]
    | Contract issuer_version issuer_bytes name =>
      cases mainnet <;>
        simp [special_is_standard, PrincipalData.version_byte, pure, Except.pure, bind, Except.bind,
          C32_ADDRESS_VERSION_MAINNET_SINGLESIG, C32_ADDRESS_VERSION_MAINNET_MULTISIG,
          C32_ADDRESS_VERSION_TESTNET_SINGLESIG, C32_ADDRESS_VERSION_TESTNET_MULTISIG,
          or_comm]
  · intro h1 h2 h3 h4
    cases p with
    | Standard version bytes =>
      simp only [PrincipalData.version_byte, C32_ADDRESS_VERSION_MAINNET_SINGLESIG,
        C32_ADDRESS_VERSION_MAINNET_MULTISIG, C32_ADDRESS_VERSION_TESTNET_SINGLESIG,
        C32_ADDRESS_VERSION_TESTNET_MULTISIG] at h1 h2 h3 h4
      cases mainnet <;>
        simp [special_is_standard, pure, Except.pure, bind, Except.bind,
          C32_ADDRESS_VERSION_MAINNET_SINGLESIG, C32_ADDRESS_VERSION_MAINNET_MULTISIG,
          C32_ADDRESS_VERSION_TESTNET_SINGLESIG, C32_ADDRESS_VERSION_TESTNET_MULTISIG,
          h1, h2, h3, h4]
    | Contract issuer_version issuer_bytes name =>
      simp only [PrincipalData.version_byte, C32_ADDRESS_VERSION_MAINNET_SINGLESIG,
        C32_ADDRESS_VERSION_MAINNET_MULTISIG, C32_ADDRESS_VERSION_TESTNET_SINGLESIG,
        C32_ADDRESS_VERSION_TESTNET_MULTISIG] at h1 h2 h3 h4
      cases mainnet <;>
        simp [special_is_standard, pure, Except.pure, bind, Except.bind,
          C32_ADDRESS_VERSION_MAINNET_SINGLESIG, C32_ADDRESS_VERSION_MAINNET_MULTISIG,
          C32_ADDRESS_VERSION_TESTNET_SINGLESIG, C32_ADDRESS_VERSION_TESTNET_MULTISIG,
          h1, h2, h3, h4]
  · cases v with
    | Bool b => rfl
    | Int i => rfl
    | Principal q => exact absurd rfl (hv q)

/-- C10 witness: a standard principal with the mainnet single-sig
version byte 22 is standard in a mainnet context, and a bare boolean
argument raises the type-value error. -/
theorem is_standard_network_match_witness :
    special_is_standard (.Principal (.Standard 22 [])) true = .ok (.Bool true)
    ∧ special_is_standard (.Bool true) true =
        .error (.TypeValueError (.Bool true)) := by
  have h := is_standard_network_match (.Standard 22 []) true (.Bool true)
    (fun q hq => by cases hq)
  exact ⟨h.1.mpr (Or.inl ⟨Or.inl rfl, rfl⟩), h.2.2⟩
